import Mathlib

/-!
# Verification of the dynamixplore Python layer

Shallow embedding of `src/dynamixplore/simulation.py` and
`src/dynamixplore/analysis.py`.  Real numbers are modelled by `ℚ` (the
Python layer performs only exact-arithmetic-representable manipulations in
the properties verified here), NumPy 2-D arrays by `NdArray2`, Python
exceptions by `PyError` through `Except`.  The compiled Rust extension
(`rust_core` / `dx_rust`) is not part of the Python sources; where its
behaviour decides a property it is modelled from the specification and
marked `Modelled from the spec:` in the doc comment.
-/

/-- Decidable equality on `Except`, by cases on the two constructors. -/
instance {e a : Type} [DecidableEq e] [DecidableEq a] : DecidableEq (Except e a)
  | .error x, .error y =>
    if h : x = y then .isTrue (congrArg Except.error h)
    else .isFalse (fun hc => h (Except.error.inj hc))
  | .error _, .ok _ => .isFalse (fun hc => Except.noConfusion hc)
  | .ok _, .error _ => .isFalse (fun hc => Except.noConfusion hc)
  | .ok x, .ok y =>
    if h : x = y then .isTrue (congrArg Except.ok h)
    else .isFalse (fun hc => h (Except.ok.inj hc))

/-- A Python exception value, restricted to the exception classes raised by
the embedded code. -/
inductive PyError where
  | typeError (msg : String)
  | valueError (msg : String)
  | notImplementedError (msg : String)
deriving DecidableEq, Repr

/-- A 2-D NumPy array: its shape metadata together with its rows. -/
structure NdArray2 where
  shape0 : ℕ
  shape1 : ℕ
  rows : List (List ℚ)
deriving DecidableEq, Repr

instance : Inhabited NdArray2 := ⟨⟨0, 0, []⟩⟩

/-- Well-formedness of a 2-D array: the shape metadata matches the data. -/
def NdArray2.wf (a : NdArray2) : Prop :=
  a.rows.length = a.shape0 ∧ ∀ r ∈ a.rows, r.length = a.shape1

instance (a : NdArray2) : Decidable a.wf := by
  unfold NdArray2.wf; infer_instance

/-- The `trajectory` argument of `Analysis.__init__`: either a 2-D NumPy
array or any other Python value (a 1-D array, a list, ...), which the
constructor rejects. -/
inductive TrajArg where
  | nd2 (a : NdArray2)
  | nonNd2
deriving DecidableEq, Repr

/-- The state held by a constructed `Analysis` object
(`analysis.py`, lines 41-44). -/
structure Analysis where
  trajectory : NdArray2
  t : Option (List ℚ)
  dt : Option ℚ
  n_points : ℕ
  n_dims : ℕ
deriving DecidableEq, Repr

/-- `Analysis.__init__` (`analysis.py`, lines 18-49): rejects a trajectory
that is not a 2-D NumPy array, rejects missing time information, and
otherwise stores the trajectory with `n_points, n_dims = trajectory.shape`. -/
def Analysis.init (trajectory : TrajArg) (t : Option (List ℚ)) (dt : Option ℚ) :
    Except PyError Analysis :=
  match trajectory with
  | .nonNd2 => .error (.valueError "Trajectory must be a 2D NumPy array.")
  | .nd2 a =>
    if t = none ∧ dt = none then
      .error (.valueError "Time information is required. Please provide either t or dt.")
    else
      .ok { trajectory := a, t := t, dt := dt, n_points := a.shape0, n_dims := a.shape1 }

/-- Exact model of `np.arange(start, stop, step)` for rational arguments:
the values `start + k·step` for `0 ≤ k < ⌈(stop - start)/step⌉`
(empty for a non-positive step, which the embedded code never uses). -/
def npArange (start stop step : ℚ) : List ℚ :=
  if 0 < step then
    (List.range ((stop - start) / step).ceil.toNat).map (fun k : ℕ => start + (k : ℚ) * step)
  else []

/-- The default column names `['x0', 'x1', ...]` of `Analysis.to_dataframe`. -/
def defaultColumnNames (n_dims : ℕ) : List String :=
  (List.range n_dims).map (fun i => "x" ++ toString i)

/-- The data columns of the DataFrame built by `Analysis.to_dataframe`:
each trajectory column paired with its name. -/
def dataColumns (a : Analysis) (names : List String) : List (String × List ℚ) :=
  names.zip a.trajectory.rows.transpose

/-- `Analysis.to_dataframe` (`analysis.py`, lines 162-187), with the
DataFrame modelled as its ordered (name, column) pairs: validates the
column-name count, then prepends a `time` column — the stored `t` array
when present, otherwise `np.arange(0, n_points * dt, dt)[:n_points]`
when `dt` is present. -/
def Analysis.to_dataframe (a : Analysis) (column_names : Option (List String)) :
    Except PyError (List (String × List ℚ)) :=
  let names := column_names.getD (defaultColumnNames a.n_dims)
  if names.length ≠ a.n_dims then
    .error (.valueError "Wrong number of column names.")
  else
    let df := dataColumns a names
    match a.t with
    | some ts => .ok (("time", ts) :: df)
    | none =>
      match a.dt with
      | some d => .ok (("time", (npArange 0 ((a.n_points : ℚ) * d) d).take a.n_points) :: df)
      | none => .ok df

/-! ## Invariant measure (`Analysis.invariant_measure`, `analysis.py` lines 111-159) -/

/-- One increment of a visit count in an association list keyed by bin
coordinate: bump the count if the key is present, append the key with
count 1 otherwise. -/
def incrBin : List ((ℤ × ℤ) × ℕ) → (ℤ × ℤ) → List ((ℤ × ℤ) × ℕ)
  | [], k => [(k, 1)]
  | (k', c) :: rest, k =>
    if k' = k then (k', c + 1) :: rest else (k', c) :: incrBin rest k

/-- Modelled from the spec: the box-counting core
`rust_core.Stats.compute_invariant_measure` lives in the compiled Rust
extension, which is not among the Python sources.  Per the spec, for every
trajectory point it computes the bin coordinate
`(⌊x/epsilon⌋, ⌊y/epsilon⌋)` and increments that bin's visit count in a
mapping keyed by bin coordinate (unique keys, internal order irrelevant). -/
def computeInvariantMeasure (pts : List (ℚ × ℚ)) (epsilon : ℚ) :
    List ((ℤ × ℤ) × ℕ) :=
  pts.foldl (fun m p => incrBin m ((p.1 / epsilon).floor, (p.2 / epsilon).floor)) []

/-- Python (NumPy) indexing of a row by a possibly negative column index. -/
def pyIndex (r : List ℚ) (d : ℤ) : ℚ :=
  if d < 0 then r.getD (r.length - (-d).toNat) 0 else r.getD d.toNat 0

/-- `self.trajectory[:, list(dims)]` for a two-element `dims`, as the list
of projected coordinate pairs. -/
def projectTraj (rows : List (List ℚ)) (d0 d1 : ℤ) : List (ℚ × ℚ) :=
  rows.map (fun r => (pyIndex r d0, pyIndex r d1))

/-- Minimum of `f` over a nonempty association list (0 on the empty list,
which the callers exclude); models `coords.min(axis=0)` componentwise. -/
def listMinBy (l : List ((ℤ × ℤ) × ℕ)) (f : (ℤ × ℤ) × ℕ → ℤ) : ℤ :=
  match l with
  | [] => 0
  | x :: xs => xs.foldl (fun m y => min m (f y)) (f x)

/-- Maximum of `f` over a nonempty association list (0 on the empty list);
models `coords.max(axis=0)` componentwise. -/
def listMaxBy (l : List ((ℤ × ℤ) × ℕ)) (f : (ℤ × ℤ) × ℕ → ℤ) : ℤ :=
  match l with
  | [] => 0
  | x :: xs => xs.foldl (fun m y => max m (f y)) (f x)

/-- Read grid cell `(i, j)` of a row-major grid, 0 outside the grid. -/
def gridGet (g : List (List ℕ)) (i j : ℕ) : ℕ :=
  (g.getD i []).getD j 0

/-- Write grid cell `(i, j)` of a row-major grid (no-op outside the grid);
models one NumPy fancy-index assignment target. -/
def setGrid (g : List (List ℕ)) (i j : ℕ) (v : ℕ) : List (List ℕ) :=
  g.set i ((g.getD i []).set j v)

/-- `np.zeros(grid_shape)` as a row-major grid of naturals. -/
def zeroGrid (nx ny : ℕ) : List (List ℕ) :=
  List.replicate nx (List.replicate ny 0)

/-- The NumPy scatter assignment
`histogram[grid_indices[:, 0], grid_indices[:, 1]] = counts`: write each
entry's count at its coordinate relative to the grid origin `minC`. -/
def scatterCounts (minC : ℤ × ℤ) (entries : List ((ℤ × ℤ) × ℕ))
    (g : List (List ℕ)) : List (List ℕ) :=
  entries.foldl
    (fun g e => setGrid g (e.1.1 - minC.1).toNat (e.1.2 - minC.2).toNat e.2) g

/-- `np.arange(a, b)` over integers. -/
def intRange (a b : ℤ) : List ℤ :=
  (List.range (b - a).toNat).map (fun k : ℕ => a + (k : ℤ))

/-- The sparse histogram computed inside `Analysis.invariant_measure` for a
given projection (its first two dims). -/
def imHist (a : Analysis) (epsilon : ℚ) (dims : List ℤ) : List ((ℤ × ℤ) × ℕ) :=
  computeInvariantMeasure
    (projectTraj a.trajectory.rows (dims.getD 0 0) (dims.getD 1 0)) epsilon

/-- `Analysis.invariant_measure` (`analysis.py`, lines 111-159): rejects a
`dims` of length other than 2 before calling the box-counting core; on an
empty sparse histogram returns `(np.array([[]]), np.array([]), np.array([]))`;
otherwise converts the sparse mapping into a dense grid anchored at the
minimum observed bin coordinate and returns it with the two bin-edge
arrays `np.arange(min, max + 2) * epsilon`.  The second component of the
result counts the invocations of the box-counting core. -/
def Analysis.invariant_measure (a : Analysis) (epsilon : ℚ) (dims : List ℤ) :
    Except PyError (List (List ℕ) × List ℚ × List ℚ) × ℕ :=
  if dims.length ≠ 2 then
    (.error (.valueError "Invariant measure projection currently only supports 2 dimensions."), 0)
  else
    let hist := imHist a epsilon dims
    if hist = [] then
      (.ok ([[]], [], []), 1)
    else
      let minX := listMinBy hist (fun e => e.1.1)
      let minY := listMinBy hist (fun e => e.1.2)
      let maxX := listMaxBy hist (fun e => e.1.1)
      let maxY := listMaxBy hist (fun e => e.1.2)
      let g0 := zeroGrid (maxX - minX + 1).toNat (maxY - minY + 1).toNat
      let histogram := scatterCounts (minX, minY) hist g0
      let x_bins := (intRange minX (maxX + 2)).map (fun k : ℤ => (k : ℚ) * epsilon)
      let y_bins := (intRange minY (maxY + 2)).map (fun k : ℤ => (k : ℚ) * epsilon)
      (.ok (histogram, x_bins, y_bins), 1)

/-! ## Simulation (`simulation.py`) -/

/-- The Python values passed as keyword arguments at the call
`Analysis(trajectory=trajectory, times=times)` in `Simulation.run`. -/
inductive PyVal where
  | nd2 (a : NdArray2)
  | arr1 (xs : List ℚ)
  | rat (q : ℚ)
  | pyNone
deriving DecidableEq, Repr

/-- The parameter names of `Analysis.__init__` after `self`. -/
def analysisInitParams : List String := ["trajectory", "t", "dt"]

/-- Python keyword-argument binding: each keyword must name a parameter;
an unknown keyword raises
`TypeError: __init__() got an unexpected keyword argument`. -/
def bindKwargs (params : List String) :
    List (String × PyVal) → Except PyError (List (String × PyVal))
  | [] => .ok []
  | (k, v) :: rest =>
    if k ∈ params then do
      let r ← bindKwargs params rest
      .ok ((k, v) :: r)
    else
      .error (.typeError ("got an unexpected keyword argument " ++ k))

/-- Coerce a bound Python value to the `trajectory` argument of
`Analysis.__init__`: only a 2-D NumPy array passes the 2-D check. -/
def asTrajArg : PyVal → TrajArg
  | .nd2 a => .nd2 a
  | _ => .nonNd2

/-- Coerce a bound Python value to the optional `t` array. -/
def asOptArr : PyVal → Option (List ℚ)
  | .arr1 xs => some xs
  | _ => none

/-- Coerce a bound Python value to the optional `dt` number. -/
def asOptRat : PyVal → Option ℚ
  | .rat q => some q
  | _ => none

/-- A Python call `Analysis(**kwargs)`: bind the keyword arguments against
the parameter list of `Analysis.__init__`, then run the constructor body. -/
def callAnalysis (kwargs : List (String × PyVal)) : Except PyError Analysis := do
  let bound ← bindKwargs analysisInitParams kwargs
  Analysis.init (asTrajArg ((bound.lookup "trajectory").getD .pyNone))
    (asOptArr ((bound.lookup "t").getD .pyNone))
    (asOptRat ((bound.lookup "dt").getD .pyNone))

/-- The state held by a constructed `Simulation` object
(`simulation.py`, lines 77-107). -/
structure Simulation where
  dynamics_func : ℚ → List ℚ → List ℚ
  initial_state : List ℚ
  t_start : ℚ
  t_end : ℚ
  dt : ℚ
  solver_options : List (String × ℚ)

/-- The raw arguments reaching `Simulation.__init__`, with the Python-level
type facts (callability, `np.asarray` dimensionality, tuple-ness,
numericality) recorded as the data the `isinstance`/`callable` checks read. -/
structure SimInitArgs where
  dynamics_func : ℚ → List ℚ → List ℚ
  dynamics_callable : Bool
  initial_state : List ℚ
  initial_state_ndim : ℕ
  t_span_isPair : Bool
  t_start : ℚ
  t_end : ℚ
  dt_isNumber : Bool
  dt : ℚ
  solver_options_isDictOrNone : Bool
  solver_options : List (String × ℚ)

/-- `Simulation.__init__` (`simulation.py`, lines 49-107): the validation
chain — callability of the dynamics, 1-D initial state, well-formed and
increasing time span, positive numeric step, dict-or-None solver options —
run in source order, storing the validated configuration on success. -/
def Simulation.init (a : SimInitArgs) : Except PyError Simulation :=
  if ¬a.dynamics_callable then
    .error (.typeError "The dynamics function must be callable.")
  else if a.initial_state_ndim ≠ 1 then
    .error (.valueError "The initial state must be a 1D array.")
  else if ¬a.t_span_isPair then
    .error (.valueError "The time span t_span must be a tuple of length 2.")
  else if a.t_end ≤ a.t_start then
    .error (.valueError "The end time must be greater than the start time.")
  else if ¬a.dt_isNumber ∨ a.dt ≤ 0 then
    .error (.valueError "The time step dt must be a positive number.")
  else if ¬a.solver_options_isDictOrNone then
    .error (.typeError "The solver options must be a dictionary.")
  else
    .ok { dynamics_func := a.dynamics_func, initial_state := a.initial_state,
          t_start := a.t_start, t_end := a.t_end, dt := a.dt,
          solver_options := a.solver_options }

/-- The time information attached to a backend solver result: explicit
per-point times (adaptive) or the implicit fixed step. -/
inductive TimeInfo where
  | times (ts : List ℚ)
  | dtOnly (d : ℚ)
deriving DecidableEq, Repr

/-- What a successful backend solver call returns. -/
structure BackendResult where
  trajectory : NdArray2
  timeInfo : TimeInfo
deriving DecidableEq, Repr

/-- The second element of the `(trajectory, times)` pair a backend solver
returns, as the Python value bound to the keyword `times` in `run`. -/
def timeInfoVal : TimeInfo → PyVal
  | .times ts => .arr1 ts
  | .dtOnly d => .rat d

/-- A backend solver call returns either a result or a raised error,
together with the number of dynamics-callback invocations it performed. -/
def SolverRet : Type := Except PyError BackendResult × ℕ

/-- The `common_args` tuple of `Simulation.run`
(`simulation.py`, lines 158-164). -/
structure CommonArgs where
  f : ℚ → List ℚ → List ℚ
  y0 : List ℚ
  t0 : ℚ
  t1 : ℚ
  h : ℚ

/-- The interface of the compiled Rust extension consumed by
`Simulation.run`: one function per solver name in `solver_map`. -/
structure RustCore where
  solve_rk45_adaptive : CommonArgs → ℚ → ℚ → SolverRet
  solve_rk4_explicit : CommonArgs → SolverRet
  solve_euler_explicit : CommonArgs → SolverRet
  solve_rk4_implicit : CommonArgs → SolverRet
  solve_euler_implicit : CommonArgs → SolverRet

/-- The keys of `solver_map` in `Simulation.run`. -/
def solverNames : List String :=
  ["rk45_adaptive", "rk4_explicit", "euler_explicit", "rk4_implicit", "euler_implicit"]

/-- The backend call `Simulation.run` performs once the solver name has
been resolved: the adaptive solver additionally receives `abstol` and
`reltol` read from `solver_options` with defaults `1e-6`. -/
def backendCall (core : RustCore) (sim : Simulation) (solver : String) : SolverRet :=
  let common : CommonArgs :=
    ⟨sim.dynamics_func, sim.initial_state, sim.t_start, sim.t_end, sim.dt⟩
  if solver = "rk45_adaptive" then
    core.solve_rk45_adaptive common
      ((sim.solver_options.lookup "abstol").getD (1 / 1000000))
      ((sim.solver_options.lookup "reltol").getD (1 / 1000000))
  else if solver = "rk4_explicit" then core.solve_rk4_explicit common
  else if solver = "euler_explicit" then core.solve_euler_explicit common
  else if solver = "rk4_implicit" then core.solve_rk4_implicit common
  else core.solve_euler_implicit common

/-- The observable outcome of `Simulation.run`: the value returned or the
error raised, the number of backend solver invocations, and the number of
dynamics-callback invocations. -/
structure RunTrace where
  result : Except PyError Analysis
  solverCalls : ℕ
  dynCalls : ℕ
deriving DecidableEq, Repr

/-- `Simulation.run` (`simulation.py`, lines 111-191): reject a solver name
outside `solver_map` with a `ValueError` before any backend call; otherwise
invoke the selected backend solver and, on success, execute
`Analysis(trajectory=trajectory, times=times)`. -/
def Simulation.run (core : RustCore) (sim : Simulation) (solver : String) : RunTrace :=
  if solver ∉ solverNames then
    { result := .error (.valueError ("Solver " ++ solver ++ " is not supported.")),
      solverCalls := 0, dynCalls := 0 }
  else
    match backendCall core sim solver with
    | (.error e, n) => { result := .error e, solverCalls := 1, dynCalls := n }
    | (.ok r, n) =>
      { result := callAnalysis
          [("trajectory", .nd2 r.trajectory), ("times", timeInfoVal r.timeInfo)],
        solverCalls := 1, dynCalls := n }

/-! ## The modelled Rust backend -/

/-- Componentwise sum of two state vectors. -/
def vecAdd (x y : List ℚ) : List ℚ := List.zipWith (· + ·) x y

/-- Modelled from the spec: the fixed-step explicit Euler solver
`rust_core.solve_euler_explicit` (compiled Rust, not among the Python
sources).  Per the spec it produces `⌈(t_end - t_start)/h⌉ + 1` points via
`y_{k+1} = y_k + h·f(t_k, y_k)`, clamping the final step to land exactly on
`t_end`, and returns the trajectory with the implicit fixed step `dt`.
One dynamics invocation per step. -/
def solveEulerExplicit (f : ℚ → List ℚ → List ℚ) (y0 : List ℚ)
    (t0 t1 h : ℚ) : SolverRet :=
  let n := ((t1 - t0) / h).ceil.toNat
  let rows := ((List.range n).foldl
    (fun (acc : List ℚ × List (List ℚ)) k =>
      let tk := t0 + (k : ℚ) * h
      let hk := min h (t1 - tk)
      let y' := vecAdd acc.1 ((f tk acc.1).map (fun d => hk * d))
      (y', acc.2 ++ [y'])) (y0, [y0])).2
  (.ok { trajectory := { shape0 := n + 1, shape1 := y0.length, rows := rows },
         timeInfo := .dtOnly h }, n)

/-- Modelled from the spec: the compiled Rust backend, parametrised by the
post-validation behaviour of the solvers no verified property inspects.
The fixed behaviours follow the spec (and the repository tests): the
adaptive solver requires `abstol > 0` and `reltol > 0`, reporting a
non-positive tolerance as a configuration error before any dynamics
invocation; the implicit RK4 solver is unimplemented and signals
`NotImplementedError`; explicit Euler is `solveEulerExplicit`. -/
def specCore (rk45body : CommonArgs → ℚ → ℚ → SolverRet)
    (rk4body eulImpBody : CommonArgs → SolverRet) : RustCore where
  solve_rk45_adaptive := fun a abstol reltol =>
    if abstol ≤ 0 ∨ reltol ≤ 0 then
      (.error (.valueError "Tolerances abstol and reltol must be positive."), 0)
    else rk45body a abstol reltol
  solve_rk4_explicit := rk4body
  solve_euler_explicit := fun a => solveEulerExplicit a.f a.y0 a.t0 a.t1 a.h
  solve_rk4_implicit := fun _ =>
    (.error (.notImplementedError "Implicit RK4 is not implemented."), 0)
  solve_euler_implicit := eulImpBody

/-- A trivial post-validation solver body, used only to instantiate
`specCore` in closed witness statements. -/
def stubRet : SolverRet := (.ok { trajectory := ⟨1, 1, [[0]]⟩, timeInfo := .times [0] }, 0)

/-- A concrete instantiation of the modelled backend for closed witness
statements. -/
def coreEx : RustCore :=
  specCore (fun _ _ _ => stubRet) (fun _ => stubRet) (fun _ => stubRet)

/-- A concrete valid configuration (a linear system over `[0, 1]` with
step `1/2`) for closed witness statements. -/
def simEx : Simulation :=
  { dynamics_func := fun _ y => y.map (fun v => -v), initial_state := [1, 0],
    t_start := 0, t_end := 1, dt := 1 / 2, solver_options := [] }

/-- A configuration error in the taxonomy of the spec: a `TypeError` or a
`ValueError`, as opposed to a `NotImplementedError`. -/
def PyError.isConfigError : PyError → Bool
  | .typeError _ => true
  | .valueError _ => true
  | .notImplementedError _ => false

/-- Concrete invalid constructor arguments (`dt = 0`) for witnesses. -/
def argsBadDt : SimInitArgs :=
  { dynamics_func := fun _ y => y, dynamics_callable := true,
    initial_state := [1], initial_state_ndim := 1,
    t_span_isPair := true, t_start := 0, t_end := 1,
    dt_isNumber := true, dt := 0,
    solver_options_isDictOrNone := true, solver_options := [] }

/-! ## Theorems -/

/-- Claim C3: whenever the dynamics is not callable, or the initial state
is not one-dimensional, or `t_end ≤ t_start`, or `dt ≤ 0`, the
`Simulation` constructor produces a `TypeError` or `ValueError` — and the
same error whatever the dynamics function computes, so the failure is
decided before any solver function or dynamics callback could be invoked
(the constructor receives no backend and the stored callback never runs). -/
theorem sim_init_rejects_invalid_config (a : SimInitArgs)
    (h : a.dynamics_callable = false ∨ a.initial_state_ndim ≠ 1 ∨
      a.t_end ≤ a.t_start ∨ a.dt ≤ 0) :
    ∃ e, e.isConfigError = true ∧
      ∀ g : ℚ → List ℚ → List ℚ,
        Simulation.init { a with dynamics_func := g } = .error e := by
  unfold Simulation.init
  rcases h1 : a.dynamics_callable with _ | _
  · exact ⟨.typeError "The dynamics function must be callable.", rfl, fun g => by simp [h1]⟩
  by_cases h2 : a.initial_state_ndim = 1
  case neg =>
    exact ⟨.valueError "The initial state must be a 1D array.", rfl, fun g => by simp [h1, h2]⟩
  rcases h3 : a.t_span_isPair with _ | _
  · exact ⟨.valueError "The time span t_span must be a tuple of length 2.", rfl,
      fun g => by simp [h1, h2, h3]⟩
  by_cases h4 : a.t_end ≤ a.t_start
  case pos =>
    exact ⟨.valueError "The end time must be greater than the start time.", rfl,
      fun g => by simp [h1, h2, h3, h4]⟩
  by_cases h5 : a.dt ≤ 0
  case pos =>
    exact ⟨.valueError "The time step dt must be a positive number.", rfl,
      fun g => by simp [h1, h2, h3, h4, h5]⟩
  rcases h with h | h | h | h
  · rw [h1] at h; exact absurd h (by simp)
  · exact absurd h2 (by simpa using h)
  · exact absurd h h4
  · exact absurd h h5

/-- Witness for C3: the concrete arguments with `dt = 0` are rejected with
a configuration error. -/
theorem sim_init_rejects_invalid_config_witness :
    ∃ e, e.isConfigError = true ∧
      ∀ g : ℚ → List ℚ → List ℚ,
        Simulation.init { argsBadDt with dynamics_func := g } = .error e :=
  sim_init_rejects_invalid_config argsBadDt (Or.inr (Or.inr (Or.inr (le_refl 0))))

/-- Claim C9: `Analysis.__init__` rejects a 2-D trajectory given with
neither `t` nor `dt` with a `ValueError`, rejects a non-2-D-array
trajectory with a `ValueError`, and on success stores
`n_points, n_dims = trajectory.shape`. -/
theorem analysis_init_spec :
    (∀ arr : NdArray2, Analysis.init (.nd2 arr) none none =
      .error (.valueError "Time information is required. Please provide either t or dt."))
    ∧ (∀ (t : Option (List ℚ)) (dt : Option ℚ), Analysis.init .nonNd2 t dt =
      .error (.valueError "Trajectory must be a 2D NumPy array."))
    ∧ (∀ (tr : TrajArg) (t : Option (List ℚ)) (dt : Option ℚ) (res : Analysis),
        Analysis.init tr t dt = .ok res →
        ∃ arr, tr = .nd2 arr ∧ res.trajectory = arr ∧
          res.n_points = arr.shape0 ∧ res.n_dims = arr.shape1) := by
  refine ⟨fun arr => by simp [Analysis.init], fun t dt => rfl, ?_⟩
  intro tr t dt res hok
  cases tr with
  | nonNd2 => exact absurd hok (by simp [Analysis.init])
  | nd2 arr =>
    refine ⟨arr, rfl, ?_⟩
    simp only [Analysis.init] at hok
    by_cases hc : t = none ∧ dt = none
    · rw [if_pos hc] at hok; exact absurd hok (by simp)
    · rw [if_neg hc] at hok
      cases hok
      exact ⟨rfl, rfl, rfl⟩

/-- Witness for C9: the success branch applied to a concrete 2-by-3
trajectory with `dt = 1`. -/
theorem analysis_init_spec_witness :
    ∃ arr, TrajArg.nd2 ⟨2, 3, [[0, 0, 0], [1, 1, 1]]⟩ = .nd2 arr ∧
      (Analysis.mk ⟨2, 3, [[0, 0, 0], [1, 1, 1]]⟩ none (some 1) 2 3).trajectory = arr ∧
      (Analysis.mk ⟨2, 3, [[0, 0, 0], [1, 1, 1]]⟩ none (some 1) 2 3).n_points = arr.shape0 ∧
      (Analysis.mk ⟨2, 3, [[0, 0, 0], [1, 1, 1]]⟩ none (some 1) 2 3).n_dims = arr.shape1 :=
  analysis_init_spec.2.2 (.nd2 ⟨2, 3, [[0, 0, 0], [1, 1, 1]]⟩) none (some 1) _ rfl

/-- Claim C7: a `dims` of length other than 2 makes
`Analysis.invariant_measure` raise a `ValueError` with the box-counting
core never invoked (invocation count 0); the stored trajectory is read
only after this check, so it is untouched. -/
theorem invariant_measure_dims_guard (a : Analysis) (epsilon : ℚ) (dims : List ℤ)
    (h : dims.length ≠ 2) :
    a.invariant_measure epsilon dims =
      (.error (.valueError "Invariant measure projection currently only supports 2 dimensions."), 0) := by
  unfold Analysis.invariant_measure
  simp [h]

/-- Witness for C7: a one-element `dims` on a concrete `Analysis`. -/
theorem invariant_measure_dims_guard_witness :
    (Analysis.mk ⟨1, 2, [[0, 0]]⟩ none (some 1) 1 2).invariant_measure 1 [0] =
      (.error (.valueError "Invariant measure projection currently only supports 2 dimensions."), 0) :=
  invariant_measure_dims_guard _ 1 [0] (by decide)

/-- The call `Analysis(trajectory=..., times=...)` at the end of
`Simulation.run` always raises: `times` is not a parameter of
`Analysis.__init__` (whose parameters are `trajectory`, `t`, `dt`). -/
lemma callAnalysis_times_kwarg (v1 v2 : PyVal) :
    callAnalysis [("trajectory", v1), ("times", v2)] =
      .error (.typeError "got an unexpected keyword argument times") := rfl

/-- Claim C4: requesting `rk4_implicit` fails with a
`NotImplementedError`, which no configuration error (`ValueError` or
`TypeError`) equals; a solver name outside the supported set fails with a
`ValueError` without a single backend solver call. -/
theorem run_rk4_implicit_and_unknown_solver :
    (∀ (b45 : CommonArgs → ℚ → ℚ → SolverRet) (b4 bi : CommonArgs → SolverRet)
        (sim : Simulation),
      (Simulation.run (specCore b45 b4 bi) sim "rk4_implicit").result =
        .error (.notImplementedError "Implicit RK4 is not implemented.") ∧
      ∀ msg, PyError.notImplementedError "Implicit RK4 is not implemented." ≠ .valueError msg ∧
        PyError.notImplementedError "Implicit RK4 is not implemented." ≠ .typeError msg)
    ∧ (∀ (core : RustCore) (sim : Simulation) (s : String), s ∉ solverNames →
        Simulation.run core sim s =
          { result := .error (.valueError ("Solver " ++ s ++ " is not supported.")),
            solverCalls := 0, dynCalls := 0 }) := by
  constructor
  · intro b45 b4 bi sim
    constructor
    · rfl
    · intro msg
      exact ⟨fun hc => PyError.noConfusion hc, fun hc => PyError.noConfusion hc⟩
  · intro core sim s hs
    unfold Simulation.run
    rw [if_pos hs]

/-- Witness for C4: `rk4_implicit` on the concrete backend and
configuration, and the unsupported name `foo`. -/
theorem run_rk4_implicit_and_unknown_solver_witness :
    (Simulation.run coreEx simEx "rk4_implicit").result =
      .error (.notImplementedError "Implicit RK4 is not implemented.") ∧
    Simulation.run coreEx simEx "foo" =
      { result := .error (.valueError "Solver foo is not supported."),
        solverCalls := 0, dynCalls := 0 } :=
  ⟨(run_rk4_implicit_and_unknown_solver.1 _ _ _ simEx).1,
   run_rk4_implicit_and_unknown_solver.2 coreEx simEx "foo" (by decide)⟩

/-- Claim C5 (amended): an adaptive RK45 run whose options carry
`abstol ≤ 0` or `reltol ≤ 0` fails with a `ValueError` raised by the
backend solver upon invocation — after one solver call but before any
dynamics invocation or integration step — whatever the post-validation
solver bodies would compute. -/
theorem run_rk45_nonpositive_tolerance (b45 : CommonArgs → ℚ → ℚ → SolverRet)
    (b4 bi : CommonArgs → SolverRet) (sim : Simulation)
    (h : (sim.solver_options.lookup "abstol").getD (1 / 1000000) ≤ 0 ∨
      (sim.solver_options.lookup "reltol").getD (1 / 1000000) ≤ 0) :
    Simulation.run (specCore b45 b4 bi) sim "rk45_adaptive" =
      { result := .error (.valueError "Tolerances abstol and reltol must be positive."),
        solverCalls := 1, dynCalls := 0 } := by
  have hcall : backendCall (specCore b45 b4 bi) sim "rk45_adaptive" =
      (.error (.valueError "Tolerances abstol and reltol must be positive."), 0) := by
    unfold backendCall
    rw [if_pos rfl]
    show (if (sim.solver_options.lookup "abstol").getD (1 / 1000000) ≤ 0 ∨
        (sim.solver_options.lookup "reltol").getD (1 / 1000000) ≤ 0 then
        ((Except.error (PyError.valueError "Tolerances abstol and reltol must be positive."), 0) : SolverRet)
      else b45 ⟨sim.dynamics_func, sim.initial_state, sim.t_start, sim.t_end, sim.dt⟩
        ((sim.solver_options.lookup "abstol").getD (1 / 1000000))
        ((sim.solver_options.lookup "reltol").getD (1 / 1000000))) = _
    rw [if_pos h]
  unfold Simulation.run
  rw [if_neg (by decide), hcall]

/-- A configuration whose solver options set `abstol` to 0. -/
def simBadTol : Simulation := { simEx with solver_options := [("abstol", 0)] }

/-- Counterexample for C5: with `abstol = 0` the adaptive run does fail,
but only after the backend solver has been invoked once — not "before any
solver invocation" as the claim states. -/
theorem run_rk45_nonpositive_tolerance_counterexample :
    (Simulation.run coreEx simBadTol "rk45_adaptive").result =
      .error (.valueError "Tolerances abstol and reltol must be positive.") ∧
    (Simulation.run coreEx simBadTol "rk45_adaptive").solverCalls = 1 ∧
    ¬(Simulation.run coreEx simBadTol "rk45_adaptive").solverCalls = 0 := by
  with_unfolding_all decide

/-- Witness for C5 (amended) at the concrete configuration `simBadTol`. -/
theorem run_rk45_nonpositive_tolerance_witness :
    Simulation.run coreEx simBadTol "rk45_adaptive" =
      { result := .error (.valueError "Tolerances abstol and reltol must be positive."),
        solverCalls := 1, dynCalls := 0 } :=
  run_rk45_nonpositive_tolerance _ _ _ simBadTol
    (Or.inl (by with_unfolding_all decide))

/-- Claim C1: for every configuration and supported solver whose backend
call succeeds, `Simulation.run` does not return an `Analysis` — it raises
`TypeError`, because it passes the keyword `times` to `Analysis.__init__`,
whose parameters are `(trajectory, t, dt)`. -/
theorem run_raises_on_successful_backend (core : RustCore) (sim : Simulation)
    (solver : String) (hs : solver ∈ solverNames)
    (hok : (backendCall core sim solver).1.isOk = true) :
    (Simulation.run core sim solver).result =
      .error (.typeError "got an unexpected keyword argument times") := by
  obtain ⟨r, n, hrn⟩ : ∃ r n, backendCall core sim solver = (.ok r, n) := by
    rcases hbc : backendCall core sim solver with ⟨res, n⟩
    cases res with
    | error e => rw [hbc] at hok; exact absurd hok (by simp [Except.isOk, Except.toBool])
    | ok r => exact ⟨r, n, rfl⟩
  unfold Simulation.run
  rw [if_neg (by simpa using hs), hrn]
  exact congrArg Except.error rfl

/-- Witness for C1: the explicit Euler backend call on the concrete
configuration succeeds, and `run` raises the `TypeError` nonetheless. -/
theorem run_raises_on_successful_backend_witness :
    "euler_explicit" ∈ solverNames ∧
    (backendCall coreEx simEx "euler_explicit").1.isOk = true ∧
    (Simulation.run coreEx simEx "euler_explicit").result =
      .error (.typeError "got an unexpected keyword argument times") :=
  ⟨by decide, by with_unfolding_all decide,
   run_raises_on_successful_backend coreEx simEx "euler_explicit" (by decide)
     (by with_unfolding_all decide)⟩

/-- `np.arange(0, n·d, d)` for a positive step `d` is exactly
`[0·d, 1·d, ..., (n-1)·d]`. -/
lemma npArange_zero_mul (n : ℕ) (d : ℚ) (hd : 0 < d) :
    npArange 0 ((n : ℚ) * d) d = (List.range n).map (fun k : ℕ => (k : ℚ) * d) := by
  unfold npArange
  rw [if_pos hd]
  have hq : ((n : ℚ) * d - 0) / d = (n : ℚ) := by
    rw [sub_zero, mul_div_assoc, div_self (ne_of_gt hd), mul_one]
  have hceil : ((n : ℚ) * d - 0) / d = ((n : ℚ) : ℚ) := hq
  rw [hq]
  have hnat : ((n : ℚ)).ceil.toNat = n := by
    have : ((n : ℚ)).ceil = (n : ℤ) := by
      unfold Rat.ceil
      simp [Rat.den_natCast, Rat.num_natCast]
    rw [this, Int.toNat_natCast]
  rw [hnat]
  exact List.map_congr_left (fun k _ => by rw [zero_add])

/-- Claim C6 (amended): for an `Analysis` holding only a fixed step `dt`,
the `time` column materialized by `to_dataframe` is `[0·dt, 1·dt, ...]` —
the run's start time is not recorded in `Analysis`, so the column equals
`t_start + i·dt` only when `t_start = 0`. -/
theorem to_dataframe_fixed_step_times (a : Analysis) (d : ℚ)
    (ht : a.t = none) (hdt : a.dt = some d) (hd : 0 < d) :
    a.to_dataframe none =
      .ok (("time", (List.range a.n_points).map (fun i : ℕ => (i : ℚ) * d)) ::
        dataColumns a (defaultColumnNames a.n_dims)) := by
  unfold Analysis.to_dataframe
  have hlen : (defaultColumnNames a.n_dims).length = a.n_dims := by
    simp [defaultColumnNames]
  rw [Option.getD_none, if_neg (by rw [hlen]; exact fun hc => hc rfl), ht, hdt]
  dsimp only
  rw [npArange_zero_mul a.n_points d hd]
  rw [List.take_of_length_le (by simp)]

/-- The explicit Euler backend run that produces the fixed-step trajectory
used against claim C6: it integrates `y' = y` from `t_start = 5` to
`t_end = 7` with `dt = 1`. -/
def eulerRunC6 : SolverRet := solveEulerExplicit (fun _ y => y) [1] 5 7 1

/-- The trajectory produced by `eulerRunC6`. -/
def trajC6 : NdArray2 :=
  match eulerRunC6.1 with
  | .ok r => r.trajectory
  | .error _ => default

/-- The `Analysis` built from `trajC6` with its fixed step `dt = 1`. -/
def aC6 : Analysis :=
  { trajectory := trajC6, t := none, dt := some 1, n_points := 3, n_dims := 1 }

/-- Counterexample for C6: the run behind `trajC6` starts at
`t_start = 5`, so the claim predicts the time column `[5, 6, 7]`; the
materialized column is `[0, 1, 2]`. -/
theorem to_dataframe_fixed_step_times_counterexample :
    eulerRunC6.1 = .ok { trajectory := trajC6, timeInfo := .dtOnly 1 } ∧
    Analysis.init (.nd2 trajC6) none (some 1) = .ok aC6 ∧
    aC6.to_dataframe none = .ok [("time", [0, 1, 2]), ("x0", [1, 2, 4])] ∧
    ¬([0, 1, 2] : List ℚ) = [5 + 0 * 1, 5 + 1 * 1, 5 + 2 * 1] := by
  with_unfolding_all decide

/-- Witness for C6 (amended) at the concrete fixed-step `Analysis`. -/
theorem to_dataframe_fixed_step_times_witness :
    aC6.to_dataframe none =
      .ok (("time", (List.range aC6.n_points).map (fun i : ℕ => (i : ℚ) * 1)) ::
        dataColumns aC6 (defaultColumnNames aC6.n_dims)) :=
  to_dataframe_fixed_step_times aC6 1 rfl rfl one_pos

/-- Claim C10: when the box-counting core returns an empty mapping (after
being invoked once), `invariant_measure` returns the empty
`np.array([[]])` histogram — one row of zero cells, i.e. shape `(1, 0)` —
and two empty bin-edge arrays, instead of raising. -/
theorem invariant_measure_empty_hist (a : Analysis) (epsilon : ℚ) (dims : List ℤ)
    (h2 : dims.length = 2) (hempty : imHist a epsilon dims = []) :
    a.invariant_measure epsilon dims = (.ok ([[]], [], []), 1) ∧
    ([[]] : List (List ℕ)).length = 1 ∧
    ∀ r ∈ ([[]] : List (List ℕ)), r.length = 0 := by
  refine ⟨?_, rfl, by simp⟩
  unfold Analysis.invariant_measure
  rw [if_neg (by rw [h2]; exact fun hc => hc rfl)]
  dsimp only
  rw [hempty]
  rfl

/-- An `Analysis` over a trajectory with zero points. -/
def aEmptyTraj : Analysis :=
  { trajectory := ⟨0, 2, []⟩, t := none, dt := some 1, n_points := 0, n_dims := 2 }

/-- Witness for C10: an empty projected trajectory yields an empty sparse
histogram, and `invariant_measure` returns the empty grid and edges. -/
theorem invariant_measure_empty_hist_witness :
    aEmptyTraj.invariant_measure 1 [0, 1] = (.ok ([[]], [], []), 1) ∧
    ([[]] : List (List ℕ)).length = 1 ∧
    ∀ r ∈ ([[]] : List (List ℕ)), r.length = 0 :=
  invariant_measure_empty_hist aEmptyTraj 1 [0, 1] (by decide) rfl

/-! ## Dense-grid conversion lemmas (for `invariant_measure`) -/

/-- A grid is rectangular with `nx` rows of `ny` cells each. -/
def Rect (g : List (List ℕ)) (nx ny : ℕ) : Prop :=
  g.length = nx ∧ ∀ r ∈ g, r.length = ny

lemma rect_zeroGrid (nx ny : ℕ) : Rect (zeroGrid nx ny) nx ny := by
  constructor
  · simp [zeroGrid]
  · intro r hr
    rw [List.eq_of_mem_replicate hr]
    simp

lemma gridGet_zeroGrid (nx ny i j : ℕ) : gridGet (zeroGrid nx ny) i j = 0 := by
  unfold gridGet zeroGrid
  simp only [List.getD_eq_getElem?_getD]
  rcases lt_or_le i nx with hi | hi
  · rw [List.getElem?_replicate_of_lt hi, Option.getD_some]
    rcases lt_or_le j ny with hj | hj
    · rw [List.getElem?_replicate_of_lt hj, Option.getD_some]
    · rw [List.getElem?_eq_none (by simpa using hj)]
      rfl
  · rw [List.getElem?_eq_none (l := List.replicate nx (List.replicate ny 0))
      (by simpa using hi)]
    rfl

lemma rect_row_length {g : List (List ℕ)} {nx ny : ℕ} (h : Rect g nx ny)
    {i : ℕ} (hi : i < nx) : (g.getD i []).length = ny := by
  have hig : i < g.length := h.1 ▸ hi
  rw [List.getD_eq_getElem _ _ hig]
  exact h.2 _ (List.getElem_mem hig)

lemma rect_setGrid {g : List (List ℕ)} {nx ny : ℕ} (h : Rect g nx ny)
    (i j v : ℕ) : Rect (setGrid g i j v) nx ny := by
  by_cases hi : i < nx
  · constructor
    · simp [setGrid, h.1]
    · intro r hr
      rcases List.mem_or_eq_of_mem_set hr with hr | rfl
      · exact h.2 r hr
      · rw [List.length_set]
        exact rect_row_length h hi
  · unfold setGrid
    rw [List.set_eq_of_length_le (by rw [h.1]; omega)]
    exact h

lemma gridGet_setGrid_self {g : List (List ℕ)} {nx ny : ℕ} (h : Rect g nx ny)
    {i j : ℕ} (hi : i < nx) (hj : j < ny) (v : ℕ) :
    gridGet (setGrid g i j v) i j = v := by
  have hig : i < g.length := h.1 ▸ hi
  have hjr : j < (g.getD i []).length := by rw [rect_row_length h hi]; exact hj
  unfold gridGet setGrid
  simp only [List.getD_eq_getElem?_getD]
  rw [List.getElem?_set_self hig, Option.getD_some]
  rw [List.getElem?_set_self (by simpa [List.getD_eq_getElem?_getD] using hjr),
    Option.getD_some]

lemma gridGet_setGrid_ne (g : List (List ℕ)) (i j i' j' v : ℕ)
    (hne : i ≠ i' ∨ j ≠ j') :
    gridGet (setGrid g i j v) i' j' = gridGet g i' j' := by
  unfold gridGet setGrid
  simp only [List.getD_eq_getElem?_getD]
  rcases hne with hne | hne
  · rw [List.getElem?_set_ne hne]
  · by_cases hii : i = i'
    · subst hii
      by_cases hig : i < g.length
      · rw [List.getElem?_set_self hig, Option.getD_some, List.getElem?_set_ne hne]
      · rw [List.set_eq_of_length_le (by omega)]
    · rw [List.getElem?_set_ne hii]

lemma foldl_min_le_seed (f : (ℤ × ℤ) × ℕ → ℤ) :
    ∀ (xs : List ((ℤ × ℤ) × ℕ)) (seed : ℤ),
      xs.foldl (fun m y => min m (f y)) seed ≤ seed := by
  intro xs
  induction xs with
  | nil => intro seed; exact le_refl seed
  | cons x xs ih =>
    intro seed
    calc (x :: xs).foldl (fun m y => min m (f y)) seed
        = xs.foldl (fun m y => min m (f y)) (min seed (f x)) := rfl
      _ ≤ min seed (f x) := ih _
      _ ≤ seed := min_le_left _ _

lemma foldl_min_le_mem (f : (ℤ × ℤ) × ℕ → ℤ) :
    ∀ (xs : List ((ℤ × ℤ) × ℕ)) (seed : ℤ) (x : (ℤ × ℤ) × ℕ), x ∈ xs →
      xs.foldl (fun m y => min m (f y)) seed ≤ f x := by
  intro xs
  induction xs with
  | nil => intro seed x hx; exact absurd hx (List.not_mem_nil x)
  | cons y ys ih =>
    intro seed x hx
    rcases List.mem_cons.mp hx with rfl | hx
    · calc (x :: ys).foldl (fun m y => min m (f y)) seed
          = ys.foldl (fun m y => min m (f y)) (min seed (f x)) := rfl
        _ ≤ min seed (f x) := foldl_min_le_seed f ys _
        _ ≤ f x := min_le_right _ _
    · exact ih _ x hx

lemma listMinBy_le {l : List ((ℤ × ℤ) × ℕ)} (f : (ℤ × ℤ) × ℕ → ℤ)
    {x : (ℤ × ℤ) × ℕ} (hx : x ∈ l) : listMinBy l f ≤ f x := by
  cases l with
  | nil => exact absurd hx (List.not_mem_nil x)
  | cons y ys =>
    rcases List.mem_cons.mp hx with rfl | hx
    · exact foldl_min_le_seed f ys (f x)
    · exact foldl_min_le_mem f ys (f y) x hx

lemma foldl_max_ge_seed (f : (ℤ × ℤ) × ℕ → ℤ) :
    ∀ (xs : List ((ℤ × ℤ) × ℕ)) (seed : ℤ),
      seed ≤ xs.foldl (fun m y => max m (f y)) seed := by
  intro xs
  induction xs with
  | nil => intro seed; exact le_refl seed
  | cons x xs ih =>
    intro seed
    calc seed ≤ max seed (f x) := le_max_left _ _
      _ ≤ xs.foldl (fun m y => max m (f y)) (max seed (f x)) := ih _
      _ = (x :: xs).foldl (fun m y => max m (f y)) seed := rfl

lemma foldl_max_ge_mem (f : (ℤ × ℤ) × ℕ → ℤ) :
    ∀ (xs : List ((ℤ × ℤ) × ℕ)) (seed : ℤ) (x : (ℤ × ℤ) × ℕ), x ∈ xs →
      f x ≤ xs.foldl (fun m y => max m (f y)) seed := by
  intro xs
  induction xs with
  | nil => intro seed x hx; exact absurd hx (List.not_mem_nil x)
  | cons y ys ih =>
    intro seed x hx
    rcases List.mem_cons.mp hx with rfl | hx
    · calc f x ≤ max seed (f x) := le_max_right _ _
        _ ≤ ys.foldl (fun m y => max m (f y)) (max seed (f x)) := foldl_max_ge_seed f ys _
        _ = (x :: ys).foldl (fun m y => max m (f y)) seed := rfl
    · exact ih _ x hx

lemma le_listMaxBy {l : List ((ℤ × ℤ) × ℕ)} (f : (ℤ × ℤ) × ℕ → ℤ)
    {x : (ℤ × ℤ) × ℕ} (hx : x ∈ l) : f x ≤ listMaxBy l f := by
  cases l with
  | nil => exact absurd hx (List.not_mem_nil x)
  | cons y ys =>
    rcases List.mem_cons.mp hx with rfl | hx
    · exact foldl_max_ge_seed f ys (f x)
    · exact foldl_max_ge_mem f ys (f y) x hx

lemma mem_incrBin_keys {m : List ((ℤ × ℤ) × ℕ)} {k x : ℤ × ℤ}
    (hx : x ∈ (incrBin m k).map Prod.fst) : x ∈ m.map Prod.fst ∨ x = k := by
  induction m with
  | nil =>
    simp only [incrBin, List.map_cons, List.map_nil] at hx
    rcases List.mem_cons.mp hx with rfl | hx
    · exact Or.inr rfl
    · exact absurd hx (List.not_mem_nil x)
  | cons e rest ih =>
    obtain ⟨k', c⟩ := e
    by_cases hk : k' = k
    · rw [show incrBin ((k', c) :: rest) k = (k', c + 1) :: rest by
        simp [incrBin, hk]] at hx
      simp only [List.map_cons] at hx ⊢
      exact Or.inl hx
    · rw [show incrBin ((k', c) :: rest) k = (k', c) :: incrBin rest k by
        simp [incrBin, hk]] at hx
      simp only [List.map_cons] at hx ⊢
      rcases List.mem_cons.mp hx with rfl | hx
      · exact Or.inl (List.mem_cons_self _ _)
      · rcases ih hx with h | h
        · exact Or.inl (List.mem_cons_of_mem _ h)
        · exact Or.inr h

lemma incrBin_keys_nodup {m : List ((ℤ × ℤ) × ℕ)}
    (hm : (m.map Prod.fst).Nodup) (k : ℤ × ℤ) :
    ((incrBin m k).map Prod.fst).Nodup := by
  induction m with
  | nil => simp [incrBin]
  | cons e rest ih =>
    obtain ⟨k', c⟩ := e
    simp only [List.map_cons, List.nodup_cons] at hm
    by_cases hk : k' = k
    · rw [show incrBin ((k', c) :: rest) k = (k', c + 1) :: rest by
        simp [incrBin, hk]]
      simp only [List.map_cons, List.nodup_cons]
      exact hm
    · rw [show incrBin ((k', c) :: rest) k = (k', c) :: incrBin rest k by
        simp [incrBin, hk]]
      simp only [List.map_cons, List.nodup_cons]
      refine ⟨fun hc => ?_, ih hm.2⟩
      rcases mem_incrBin_keys hc with h | h
      · exact hm.1 h
      · exact hk h

lemma cim_keys_nodup (pts : List (ℚ × ℚ)) (epsilon : ℚ) :
    ((computeInvariantMeasure pts epsilon).map Prod.fst).Nodup := by
  unfold computeInvariantMeasure
  suffices h : ∀ (acc : List ((ℤ × ℤ) × ℕ)), (acc.map Prod.fst).Nodup →
      ((pts.foldl
        (fun m p => incrBin m ((p.1 / epsilon).floor, (p.2 / epsilon).floor)) acc).map
        Prod.fst).Nodup by
    exact h [] (by simp)
  induction pts with
  | nil => intro acc hacc; exact hacc
  | cons p rest ih =>
    intro acc hacc
    exact ih _ (incrBin_keys_nodup hacc _)

lemma scatterCounts_gridGet (minC : ℤ × ℤ) (nx ny : ℕ)
    (entries : List ((ℤ × ℤ) × ℕ)) :
    ∀ g : List (List ℕ), Rect g nx ny →
      (entries.map Prod.fst).Nodup →
      (∀ e ∈ entries, minC.1 ≤ e.1.1 ∧ e.1.1 < minC.1 + nx ∧
        minC.2 ≤ e.1.2 ∧ e.1.2 < minC.2 + ny) →
      ∀ i j : ℕ, i < nx → j < ny →
        gridGet (scatterCounts minC entries g) i j =
          (entries.lookup (minC.1 + i, minC.2 + j)).getD (gridGet g i j) := by
  induction entries with
  | nil =>
    intro g _ _ _ i j _ _
    simp [scatterCounts]
  | cons e rest ih =>
    intro g hrect hnd hin i j hi hj
    have hinE := hin e (List.mem_cons_self e rest)
    have hie : (e.1.1 - minC.1).toNat < nx := by omega
    have hje : (e.1.2 - minC.2).toNat < ny := by omega
    have hstep : scatterCounts minC (e :: rest) g =
        scatterCounts minC rest
          (setGrid g (e.1.1 - minC.1).toNat (e.1.2 - minC.2).toNat e.2) := rfl
    simp only [List.map_cons, List.nodup_cons] at hnd
    rw [hstep, ih _ (rect_setGrid hrect _ _ _) hnd.2
      (fun x hx => hin x (List.mem_cons_of_mem e hx)) i j hi hj]
    by_cases hkey : ((minC.1 + (i : ℤ), minC.2 + (j : ℤ)) : ℤ × ℤ) = e.1
    · have hrnone : rest.lookup (minC.1 + (i : ℤ), minC.2 + (j : ℤ)) = none := by
        rw [List.lookup_eq_none_iff]
        intro p hp
        rw [bne_iff_ne, hkey]
        intro hc
        exact hnd.1 (hc ▸ List.mem_map_of_mem Prod.fst hp)
      have hi' : (e.1.1 - minC.1).toNat = i := by
        have : e.1.1 = minC.1 + (i : ℤ) := by rw [← hkey]
        omega
      have hj' : (e.1.2 - minC.2).toNat = j := by
        have : e.1.2 = minC.2 + (j : ℤ) := by rw [← hkey]
        omega
      rw [hrnone, Option.getD_none, hi', hj',
        gridGet_setGrid_self hrect hi hj e.2]
      rw [show (e :: rest).lookup (minC.1 + (i : ℤ), minC.2 + (j : ℤ)) = some e.2 by
        obtain ⟨ek, ec⟩ := e
        simp only [List.lookup_cons]
        rw [show ((minC.1 + (i : ℤ), minC.2 + (j : ℤ)) == ek) = true by
          simpa [beq_iff_eq] using hkey]]
      rfl
    · have hne : (e.1.1 - minC.1).toNat ≠ i ∨ (e.1.2 - minC.2).toNat ≠ j := by
        by_contra hc
        push_neg at hc
        apply hkey
        have h1 : e.1.1 = minC.1 + (i : ℤ) := by omega
        have h2 : e.1.2 = minC.2 + (j : ℤ) := by omega
        rw [Prod.ext_iff]
        exact ⟨h1.symm, h2.symm⟩
      rw [gridGet_setGrid_ne g _ _ i j e.2 hne]
      obtain ⟨ek, ec⟩ := e
      simp only [List.lookup_cons]
      rw [show ((minC.1 + (i : ℤ), minC.2 + (j : ℤ)) == ek) = false by
        simpa [beq_eq_false_iff_ne] using hkey]

lemma rect_scatterCounts (minC : ℤ × ℤ) (nx ny : ℕ)
    (entries : List ((ℤ × ℤ) × ℕ)) :
    ∀ g : List (List ℕ), Rect g nx ny → Rect (scatterCounts minC entries g) nx ny := by
  induction entries with
  | nil => intro g hg; exact hg
  | cons e rest ih =>
    intro g hg
    exact ih _ (rect_setGrid hg _ _ _)

/-- The x-origin of the dense grid: the minimum observed x bin. -/
def imMinX (a : Analysis) (epsilon : ℚ) (dims : List ℤ) : ℤ :=
  listMinBy (imHist a epsilon dims) (fun e => e.1.1)

/-- The y-origin of the dense grid: the minimum observed y bin. -/
def imMinY (a : Analysis) (epsilon : ℚ) (dims : List ℤ) : ℤ :=
  listMinBy (imHist a epsilon dims) (fun e => e.1.2)

/-- The maximum observed x bin. -/
def imMaxX (a : Analysis) (epsilon : ℚ) (dims : List ℤ) : ℤ :=
  listMaxBy (imHist a epsilon dims) (fun e => e.1.1)

/-- The maximum observed y bin. -/
def imMaxY (a : Analysis) (epsilon : ℚ) (dims : List ℤ) : ℤ :=
  listMaxBy (imHist a epsilon dims) (fun e => e.1.2)

/-- The number of grid rows: the x extent of the bounding box. -/
def imSzX (a : Analysis) (epsilon : ℚ) (dims : List ℤ) : ℕ :=
  (imMaxX a epsilon dims - imMinX a epsilon dims + 1).toNat

/-- The number of grid columns: the y extent of the bounding box. -/
def imSzY (a : Analysis) (epsilon : ℚ) (dims : List ℤ) : ℕ :=
  (imMaxY a epsilon dims - imMinY a epsilon dims + 1).toNat

/-- The `Analysis` over the spec's invariant-measure example trajectory
`[(0.1,1.1), (0.2,1.2), (2.3,0.4), (0.8,1.9)]`. -/
def aC2 : Analysis :=
  { trajectory := ⟨4, 2, [[1/10, 11/10], [2/10, 12/10], [23/10, 4/10], [8/10, 19/10]]⟩,
    t := none, dt := some 1, n_points := 4, n_dims := 2 }

/-- Claim C2: on a nonempty sparse histogram, `invariant_measure` returns
the dense grid whose shape is the bounding box of the observed bins
(`max_bin - min_bin + 1` cells per axis), anchored at the minimum observed
bin, where the cell of each observed bin holds that bin's count and every
other cell is 0, and bin-edge arrays with `edge_k = (min_bin + k)·epsilon`;
in particular, the spec's example trajectory with `epsilon = 1` yields
count 3 in bin `(0,1)`, count 1 in bin `(2,0)`, zeros elsewhere, and edges
`[0,1,2,3]` and `[0,1,2]`. -/
theorem invariant_measure_dense_grid :
    (∀ (a : Analysis) (epsilon : ℚ) (dims : List ℤ),
      dims.length = 2 → imHist a epsilon dims ≠ [] →
      ∃ g xb yb,
        (a.invariant_measure epsilon dims).1 = .ok (g, xb, yb) ∧
        g.length = imSzX a epsilon dims ∧
        (∀ r ∈ g, r.length = imSzY a epsilon dims) ∧
        (∀ i j : ℕ, i < imSzX a epsilon dims → j < imSzY a epsilon dims →
          gridGet g i j = ((imHist a epsilon dims).lookup
            (imMinX a epsilon dims + (i : ℤ), imMinY a epsilon dims + (j : ℤ))).getD 0) ∧
        xb.length = imSzX a epsilon dims + 1 ∧
        (∀ k : ℕ, k < xb.length →
          xb.getD k 0 = ((imMinX a epsilon dims + (k : ℤ) : ℤ) : ℚ) * epsilon) ∧
        yb.length = imSzY a epsilon dims + 1 ∧
        (∀ k : ℕ, k < yb.length →
          yb.getD k 0 = ((imMinY a epsilon dims + (k : ℤ) : ℤ) : ℚ) * epsilon)) ∧
    (aC2.invariant_measure 1 [0, 1]).1 =
      .ok ([[0, 3], [0, 0], [1, 0]], [0, 1, 2, 3], [0, 1, 2]) := by
  constructor
  · intro a epsilon dims h2 hne
    obtain ⟨e0, he0⟩ := List.exists_mem_of_ne_nil _ hne
    have hXle : imMinX a epsilon dims ≤ imMaxX a epsilon dims :=
      le_trans (listMinBy_le _ he0) (le_listMaxBy _ he0)
    have hYle : imMinY a epsilon dims ≤ imMaxY a epsilon dims :=
      le_trans (listMinBy_le _ he0) (le_listMaxBy _ he0)
    have hbound : ∀ e ∈ imHist a epsilon dims,
        (imMinX a epsilon dims, imMinY a epsilon dims).1 ≤ e.1.1 ∧
        e.1.1 < (imMinX a epsilon dims, imMinY a epsilon dims).1 +
          (imSzX a epsilon dims : ℤ) ∧
        (imMinX a epsilon dims, imMinY a epsilon dims).2 ≤ e.1.2 ∧
        e.1.2 < (imMinX a epsilon dims, imMinY a epsilon dims).2 +
          (imSzY a epsilon dims : ℤ) := by
      intro e he
      have h1 : imMinX a epsilon dims ≤ e.1.1 := listMinBy_le _ he
      have h2' : e.1.1 ≤ imMaxX a epsilon dims := le_listMaxBy _ he
      have h3 : imMinY a epsilon dims ≤ e.1.2 := listMinBy_le _ he
      have h4 : e.1.2 ≤ imMaxY a epsilon dims := le_listMaxBy _ he
      have hsx : (imSzX a epsilon dims : ℤ) =
          imMaxX a epsilon dims - imMinX a epsilon dims + 1 := by
        unfold imSzX; omega
      have hsy : (imSzY a epsilon dims : ℤ) =
          imMaxY a epsilon dims - imMinY a epsilon dims + 1 := by
        unfold imSzY; omega
      refine ⟨h1, ?_, h3, ?_⟩ <;> omega
    refine ⟨scatterCounts (imMinX a epsilon dims, imMinY a epsilon dims)
        (imHist a epsilon dims)
        (zeroGrid (imSzX a epsilon dims) (imSzY a epsilon dims)),
      (intRange (imMinX a epsilon dims) (imMaxX a epsilon dims + 2)).map
        (fun k : ℤ => (k : ℚ) * epsilon),
      (intRange (imMinY a epsilon dims) (imMaxY a epsilon dims + 2)).map
        (fun k : ℤ => (k : ℚ) * epsilon),
      ?_, ?_, ?_, ?_, ?_, ?_, ?_, ?_⟩
    · unfold Analysis.invariant_measure
      rw [if_neg (by rw [h2]; exact fun hc => hc rfl)]
      dsimp only
      rw [if_neg hne]
      rfl
    · exact (rect_scatterCounts _ _ _ _ _ (rect_zeroGrid _ _)).1
    · exact (rect_scatterCounts _ _ _ _ _ (rect_zeroGrid _ _)).2
    · intro i j hi hj
      have hnodup : ((imHist a epsilon dims).map Prod.fst).Nodup :=
        cim_keys_nodup _ _
      rw [scatterCounts_gridGet _ _ _ _ _ (rect_zeroGrid _ _)
        hnodup hbound i j hi hj, gridGet_zeroGrid]
    · simp only [List.length_map, intRange, List.length_range]
      unfold imSzX
      omega
    · intro k hk
      simp only [List.length_map, intRange, List.length_range] at hk
      rw [List.getD_eq_getElem _ _ (by
        simp only [List.length_map, intRange, List.length_range]; exact hk)]
      simp [intRange]
    · simp only [List.length_map, intRange, List.length_range]
      unfold imSzY
      omega
    · intro k hk
      simp only [List.length_map, intRange, List.length_range] at hk
      rw [List.getD_eq_getElem _ _ (by
        simp only [List.length_map, intRange, List.length_range]; exact hk)]
      simp [intRange]
  · with_unfolding_all decide

/-- Witness for C2: the general dense-grid characterization applied to the
spec's example trajectory. -/
theorem invariant_measure_dense_grid_witness :
    ∃ g xb yb,
      (aC2.invariant_measure 1 [0, 1]).1 = .ok (g, xb, yb) ∧
      g.length = imSzX aC2 1 [0, 1] ∧
      (∀ r ∈ g, r.length = imSzY aC2 1 [0, 1]) ∧
      (∀ i j : ℕ, i < imSzX aC2 1 [0, 1] → j < imSzY aC2 1 [0, 1] →
        gridGet g i j = ((imHist aC2 1 [0, 1]).lookup
          (imMinX aC2 1 [0, 1] + (i : ℤ), imMinY aC2 1 [0, 1] + (j : ℤ))).getD 0) ∧
      xb.length = imSzX aC2 1 [0, 1] + 1 ∧
      (∀ k : ℕ, k < xb.length →
        xb.getD k 0 = ((imMinX aC2 1 [0, 1] + (k : ℤ) : ℤ) : ℚ) * 1) ∧
      yb.length = imSzY aC2 1 [0, 1] + 1 ∧
      (∀ k : ℕ, k < yb.length →
        yb.getD k 0 = ((imMinY aC2 1 [0, 1] + (k : ℤ) : ℤ) : ℚ) * 1) :=
  invariant_measure_dense_grid.1 aC2 1 [0, 1] (by decide)
    (by with_unfolding_all decide)
